import Mathlib

/-!
Verification development for the generation-request orchestration layer of the
"Belfort Content Suite" repository (speech / image / video generators built on
an external generative-inference service).

The embedding is shallow: the pure, control-flow relevant parts of the three
React handler components are translated into executable Lean functions.
Asynchronous request settlement is modelled by passing each request's outcome
(`FetchOutcome`) as an explicit parameter; the single-threaded cooperative
scheduling of the source means a handler run is a pure function of those
outcomes.  The JavaScript regular expressions used for cue extraction are
compiled, construct by construct, into deterministic character-list scanners
whose backtracking behaviour is derived from the ECMAScript matching
semantics (greedy `\s*`, lazy `.*?`, leftmost match, `g`-flag resumption after
the end of each match); the derivations are recorded in the doc comments.
-/

namespace WolfSuite

/-! ### Character classes and string helpers -/

/-- JS `\s` character class, restricted to the ASCII whitespace characters
(space, tab, newline, carriage return, vertical tab, form feed).  The texts
manipulated by the cue regexes in `SpeechGenerator.tsx` are ASCII, so the
Unicode space characters also matched by `\s` are irrelevant here. -/
def isJsSpace (c : Char) : Bool :=
  c = ' ' || c = '\t' || c = '\n' || c = '\r' || c = '\x0b' || c = '\x0c'

/-- JS `\d` character class. -/
def reDigit (c : Char) : Bool :=
  '0' ≤ c && c ≤ '9'

/-- JS `String.prototype.trim`: remove leading and trailing whitespace
(used by the source as `match[1].trim()` and `textModelResponse.text.trim()`). -/
def jsTrim (s : List Char) : List Char :=
  ((s.dropWhile isJsSpace).reverse.dropWhile isJsSpace).reverse

/-- Exact literal match of `p` at the start of `s`, returning the rest. -/
def matchLit : List Char → List Char → Option (List Char)
  | [], s => some s
  | _ :: _, [] => none
  | p :: ps, c :: cs => if c = p then matchLit ps cs else none

/-- JS `a.includes(b)` on character lists (`hasSub needle hay`). -/
def isPrefixCh : List Char → List Char → Bool
  | [], _ => true
  | _ :: _, [] => false
  | c :: cs, d :: ds => c = d && isPrefixCh cs ds

/-- JS `hay.includes(needle)`. -/
def hasSub (needle : List Char) : List Char → Bool
  | [] => isPrefixCh needle []
  | c :: t => isPrefixCh needle (c :: t) || hasSub needle t

/-- JS `s.includes(sub)` on `String`. -/
def strIncludes (s sub : String) : Bool :=
  hasSub sub.data s.data

/-! ### The cue regexes of `SpeechGenerator.tsx`

The source uses three regular expressions over the rewritten narrative text:

* `promptRegex = /\[IMAGE \d+\]\s*\n(.*?)\s*\n/g` (cue extraction, line 76);
* `/(\[IMAGE \d+\])\s*\n.*?\n/g` with replacement `'$1\n'`
  (`renderBelfortText`, strip the prompt line but keep the marker);
* `/\[IMAGE \d+\]\s*\n.*?\n/g` with replacement `''`
  (`textForSpeech`, strip marker and prompt line together).

All three share the head `\[IMAGE \d+\]` followed by `\s*\n`, then a lazy
`.*?` and a closing `\n` (with an extra `\s*` before it in `promptRegex`).
The backtracking behaviour of this pattern fragment is deterministic and is
compiled as follows.

* `\d+` is greedy, but since `]` is not a digit, backtracking a shorter digit
  run always fails (the next char would be a digit, not `]`); so `\d+]`
  matches exactly the maximal digit run followed by `]`.
* `\s*\n`: the greedy `\s*` first consumes the maximal whitespace run `w`,
  then backtracks.  The position consumed by the following `\n` must hold a
  newline; since `\n` is itself whitespace, the only candidate positions are
  the newline positions *inside* `w` (the character after a maximal
  whitespace run is never `'\n'`).  The engine tries them from the last to
  the first, and for each fully explores the continuation before giving up.
* `.*?` is lazy: group lengths are tried from 0 upward, and `.` (no `s`
  flag) matches any character except the ECMAScript LineTerminators
  `'\n'`, `'\r'`, U+2028 and U+2029.  For `'\n'` no explicit check is
  needed: whenever the next character is a newline, the continuation
  (`\n`, or `\s*\n`) already succeeds before the group would have to cross
  it.  For the other line terminators the group must *fail* to extend: when
  the continuation fails at such a character, the whole body attempt fails
  (larger group lengths are unreachable across it).
-/

/-- ECMAScript LineTerminator characters — the characters `.` (without the
`s` flag) refuses to match. -/
def isLineTerm (c : Char) : Bool :=
  c = '\n' || c = '\r' || c = '\u2028' || c = '\u2029'

/-- The literal head `[IMAGE ` of all three cue regexes. -/
def markerLit : List Char := ['[', 'I', 'M', 'A', 'G', 'E', ' ']

/-- Match of `\[IMAGE \d+\]` at the start of `s`: returns the matched marker text and
the rest.  Per the derivation above, `\d+\]` is the maximal digit run
(required nonempty) followed by `]`. -/
def matchMarker (s : List Char) : Option (List Char × List Char) :=
  match matchLit markerLit s with
  | none => none
  | some rest =>
    match rest.takeWhile reDigit, rest.dropWhile reDigit with
    | [], _ => none
    | d :: ds, ']' :: r2 => some (markerLit ++ (d :: ds) ++ [']'], r2)
    | _ :: _, _ => none

/-- Index of the last `'\n'` in a list, if any. -/
def lastNlIdx : List Char → Option Nat
  | [] => none
  | c :: cs =>
    match lastNlIdx cs with
    | some i => some (i + 1)
    | none => if c = '\n' then some 0 else none

/-- Ascending indices of every `'\n'` in a list. -/
def nlIdxs : List Char → List Nat
  | [] => []
  | c :: cs => (if c = '\n' then [0] else []) ++ (nlIdxs cs).map (· + 1)

/-- Newline indices in descending order: the order in which the greedy
`\s*` before a `\n` hands positions to the continuation. -/
def nlIdxsDesc (l : List Char) : List Nat := (nlIdxs l).reverse

/-- The trailing `\s*\n` of `promptRegex` (it ends the whole pattern, so the
greedy `\s*` keeps the *last* newline of the maximal whitespace run for the
final `\n`): succeeds iff the maximal whitespace run at `s` contains a
newline, consuming through the last such newline. -/
def consumeTailWsNl (s : List Char) : Option (List Char) :=
  match lastNlIdx (s.takeWhile isJsSpace) with
  | some i => some (s.drop (i + 1))
  | none => none

/-- The `(.*?)\s*\n` of `promptRegex`: lazy group, shortest first; the
group cannot cross a LineTerminator (`.` does not match it), so when the
continuation fails at one, the whole body attempt fails.  (A `'\n'` never
reaches the failure check: the continuation `\s*\n` succeeds on it first.)
Returns the captured group and the rest after the match. -/
def bodyMatch : List Char → List Char → Option (List Char × List Char)
  | acc, [] =>
    match consumeTailWsNl [] with
    | some r => some (acc.reverse, r)
    | none => none
  | acc, c :: cs =>
    match consumeTailWsNl (c :: cs) with
    | some r => some (acc.reverse, r)
    | none => if isLineTerm c then none else bodyMatch (c :: acc) cs

/-- The `.*?\n` of the two strip regexes: lazy group up to the next newline,
which is consumed; a LineTerminator other than `'\n'` cannot be crossed by
the group (`.` does not match it), so it fails the body. -/
def bodyStrip : List Char → Option (List Char)
  | [] => none
  | c :: cs =>
    if c = '\n' then some cs
    else if isLineTerm c then none
    else bodyStrip cs

/-- Descend through the candidate newline positions of the `\s*\n` after the
marker (greedy: last first), running the `promptRegex` continuation at each. -/
def tryKsPrompt : List Nat → List Char → Option (List Char × List Char)
  | [], _ => none
  | k :: ks, rest =>
    match bodyMatch [] (rest.drop (k + 1)) with
    | some gr => some gr
    | none => tryKsPrompt ks rest

/-- Same descent for the strip regexes' continuation. -/
def tryKsStrip : List Nat → List Char → Option (List Char)
  | [], _ => none
  | k :: ks, rest =>
    match bodyStrip (rest.drop (k + 1)) with
    | some r => some r
    | none => tryKsStrip ks rest

/-- Attempt of `promptRegex` anchored at the start of `s`: returns the
captured group (the raw prompt line) and the rest after the match. -/
def promptMatchAt (s : List Char) : Option (List Char × List Char) :=
  match matchMarker s with
  | none => none
  | some (_, rest) => tryKsPrompt (nlIdxsDesc (rest.takeWhile isJsSpace)) rest

/-- Attempt of the strip regexes anchored at the start of `s`: returns the
marker (capture group `$1`) and the rest after the match.  Both strip regexes
have the same match extent; only the replacement differs. -/
def stripMatchAt (s : List Char) : Option (List Char × List Char) :=
  match matchMarker s with
  | none => none
  | some (mk, rest) =>
    match tryKsStrip (nlIdxsDesc (rest.takeWhile isJsSpace)) rest with
    | some r => some (mk, r)
    | none => none

/-! ### Global scanning (`matchAll` / `replace` with the `g` flag)

A `g`-regex scan attempts a match at position 0, 1, 2, … and, after each
match, resumes at the end of the match (all matches here are nonempty, so no
empty-match bumping arises).  The scanners take an explicit fuel argument so
that they are structurally recursive and compute by `decide`; fuel equal to
the input length always suffices because every match consumes at least one
character (`*_irrel` and the `*_eq_*` equations below make the fuel
invisible to all further reasoning). -/

/-- A `matchAll`-style scan collecting `emit` of each match's payload. -/
def scanCollectF (m : List Char → Option (List Char × List Char))
    (emit : List Char → List Char) : Nat → List Char → List (List Char)
  | 0, _ => []
  | _ + 1, [] => []
  | f + 1, c :: cs =>
    match m (c :: cs) with
    | some (b, rest) => emit b :: scanCollectF m emit f rest
    | none => scanCollectF m emit f cs

/-- A `replace`-style scan rewriting each match to `rep` of its payload. -/
def scanRewriteF (m : List Char → Option (List Char × List Char))
    (rep : List Char → List Char) : Nat → List Char → List Char
  | 0, s => s
  | _ + 1, [] => []
  | f + 1, c :: cs =>
    match m (c :: cs) with
    | some (b, rest) => rep b ++ scanRewriteF m rep f rest
    | none => c :: scanRewriteF m rep f cs

/-- Source: `[...rewrittenText.matchAll(promptRegex)].map(match => match[1].trim())`
(handleGenerateSpeech, step 1.5). -/
def extractPrompts (s : List Char) : List (List Char) :=
  scanCollectF promptMatchAt jsTrim s.length s

/-- The sequence of `[IMAGE n]` marker occurrences in a text, in document
order (the formalisation of "the marker lines contained in the text"). -/
def markerOccurrences (s : List Char) : List (List Char) :=
  scanCollectF matchMarker id s.length s

/-- Source: `belfortText.replace(/(\[IMAGE \d+\])\s*\n.*?\n/g, '$1\n')`
(renderBelfortText: remove the prompt line for display, keeping the cue). -/
def stripPromptLines (s : List Char) : List Char :=
  scanRewriteF stripMatchAt (fun mk => mk ++ ['\n']) s.length s

/-- Source: `rewrittenText.replace(/\[IMAGE \d+\]\s*\n.*?\n/g, '')`
(`textForSpeech`: strip marker and prompt line together). -/
def stripBoth (s : List Char) : List Char :=
  scanRewriteF stripMatchAt (fun _ => []) s.length s

/-- Holds when `p` does not start with whitespace. -/
def noLeadWs (p : List Char) : Bool :=
  match p with
  | [] => true
  | c :: _ => !isJsSpace c

/-- Holds when `p` does not end with whitespace. -/
def noTrailWs (p : List Char) : Bool := noLeadWs p.reverse

/-- One well-formed cue block: the marker `[IMAGE n]` ending a line,
immediately followed by one prompt line. -/
def imageBlock (n p : List Char) : List Char :=
  markerLit ++ n ++ ']' :: '\n' :: (p ++ ['\n'])

/-- Constraints making a `(marker digits, prompt line, following prose)`
entry well formed: nonempty digit label; a prompt line that is nonempty,
free of line terminators (no newline, carriage return, or Unicode line /
paragraph separator — the lazy `.` of the regex cannot cross any of them),
and neither starts nor ends in whitespace; prose free of `[` (so that it
contains no marker-like occurrence). -/
def goodEntry (e : (List Char × List Char) × List Char) : Prop :=
  e.1.1 ≠ [] ∧ (∀ c ∈ e.1.1, reDigit c = true) ∧ e.1.2 ≠ [] ∧
    noLeadWs e.1.2 = true ∧ noTrailWs e.1.2 = true ∧
    (∀ c ∈ e.1.2, isLineTerm c = false) ∧ '[' ∉ e.2

instance goodEntryDecidable (e : (List Char × List Char) × List Char) :
    Decidable (goodEntry e) := by
  unfold goodEntry
  infer_instance

/-! ### C5: cue extraction on well-formed blocks, markers without prompts -/

/-- Settlement of an asynchronous call. -/
inductive FetchOutcome (α : Type) where
  | rejected (msg : String)
  | fulfilled (val : α)
deriving DecidableEq, Repr

/-- Semantics of `Promise.all`: fulfills with the list of values when every promise
fulfills; rejects with the message of the first rejection otherwise.
(Temporal settlement order is abstracted as list order.)  In particular it
does *not* wait out the remaining promises once one rejects. -/
def promiseAll {α : Type} : List (FetchOutcome α) → FetchOutcome (List α)
  | [] => .fulfilled []
  | .rejected m :: _ => .rejected m
  | .fulfilled v :: rest =>
    match promiseAll rest with
    | .rejected m => .rejected m
    | .fulfilled vs => .fulfilled (v :: vs)

/-! ### User-facing message strings (verbatim from the source) -/

def configErrorMsg : String :=
  "API key is not configured. Please set the API_KEY environment variable."

def speechValidationMsg : String := "Please enter some text to generate speech."

def imageValidationMsg : String := "Please enter a prompt to generate an image."

def videoValidationMsg : String := "Please provide a prompt and an image."

def imageFailureMsg : String :=
  "Failed to generate any images. The model may have returned an empty response or been blocked."

def imagePartialNotice (s : Nat) : String :=
  "Successfully generated " ++ toString s ++
    " out of 5 images. Some generations may have been blocked."

def bothAudioFailMsg : String := "Failed to generate one or both audio versions."

def invalidKeyMsg : String :=
  "API key is invalid or not found. Please select a valid key."

def noLinkMsg : String :=
  "Video generation completed, but no download link was provided."

def entityNotFoundSub : String := "Requested entity was not found"

def selectKeyFailMsg : String := "Could not open API key selection dialog."

/-! ### ImageGenerator: `handleGenerateImage` (the batch fan-out executor) -/

/-- The inline payload of a generation response
(`response.candidates?.[0]?.content?.parts?.[0]?.inlineData`). -/
structure InlineData where
  mimeType : String
  data : String
deriving DecidableEq, Repr

/-- The data URL `data:${mimeType};base64,${data}`. -/
def dataUrl (d : InlineData) : String :=
  "data:" ++ d.mimeType ++ ";base64," ++ d.data

/-- The observable outcome of one `handleGenerateImage` run: the images
shown, the error/notice message, and how many outbound network requests the
run issued. -/
structure ImageRunState where
  imageUrls : List String
  error : Option String
  networkCalls : Nat
deriving DecidableEq, Repr

/-- Model of `handleGenerateImage` of `ImageGenerator`.  The five concurrent
`generateContent` calls are modelled by `outcomes`, the list of their
settlements in issue order (each value is the first part's `inlineData`, or
`none` when the response lacks it).  The code path is:
validation (`!prompt.trim()`) → credential check (`!process.env.API_KEY`) →
issue 5 requests → `Promise.all` → map each response to a data URL or null →
filter nulls → classify by the number of extracted URLs; a rejection of
`Promise.all` lands in the `catch` block. -/
def handleGenerateImage (prompt : List Char) (apiKey : Option String)
    (outcomes : List (FetchOutcome (Option InlineData))) : ImageRunState :=
  if jsTrim prompt = [] then
    { imageUrls := [], error := some imageValidationMsg, networkCalls := 0 }
  else
    match apiKey with
    | none => { imageUrls := [], error := some configErrorMsg, networkCalls := 0 }
    | some _ =>
      match promiseAll outcomes with
      | .rejected m =>
        { imageUrls := [], error := some ("An error occurred: " ++ m),
          networkCalls := outcomes.length }
      | .fulfilled values =>
        let urls := values.filterMap (fun v => v.map dataUrl)
        if 0 < urls.length then
          if urls.length < 5 then
            { imageUrls := urls, error := some (imagePartialNotice urls.length),
              networkCalls := outcomes.length }
          else
            { imageUrls := urls, error := none, networkCalls := outcomes.length }
        else
          { imageUrls := [], error := some imageFailureMsg,
            networkCalls := outcomes.length }

/-! ### SpeechGenerator: `handleGenerateSpeech` and `playAudio` -/

/-- The observable outcome of one `handleGenerateSpeech` run.  Decoded audio
buffers are opaque handles (`Nat`): no claim concerns the decoded samples,
and the decoding helpers (`services/audioUtils`) are collaborators of the
component under test. -/
structure SpeechRunState where
  error : Option String
  belfortText : Option (List Char)
  generatedAudio : Option Nat × Option Nat
  hasImagePrompts : Bool
  sentPrompts : Option (List (List Char))
  networkCalls : Nat
deriving DecidableEq, Repr

/-- Model of `handleGenerateSpeech` of `SpeechGenerator`.  Parameters model the
settlements of the requests in program order: `rewrite` is the text-rewrite
call; `ttsOriginal`/`ttsBelfort` are the two TTS calls fanned out through
`Promise.all` (their value is `candidates?.[0]?.content?.parts?.[0]?.inlineData?.data`,
`none` when the response lacks the payload); `decodeFn` models
`decodeAudioData (decode base64) ...` (a rejection lands in the catch).
The generated-audio state is reset to `(null, null)` at the start of the
run and only set when both buffers decoded. -/
def handleGenerateSpeech (textInput : List Char) (apiKey : Option String)
    (rewrite : FetchOutcome (List Char))
    (ttsOriginal ttsBelfort : FetchOutcome (Option String))
    (decodeFn : String → FetchOutcome Nat) : SpeechRunState :=
  if jsTrim textInput = [] then
    { error := some speechValidationMsg, belfortText := none,
      generatedAudio := (none, none), hasImagePrompts := false,
      sentPrompts := none, networkCalls := 0 }
  else
    match apiKey with
    | none =>
      { error := some configErrorMsg, belfortText := none,
        generatedAudio := (none, none), hasImagePrompts := false,
        sentPrompts := none, networkCalls := 0 }
    | some _ =>
      match rewrite with
      | .rejected m =>
        { error := some ("An error occurred: " ++ m), belfortText := none,
          generatedAudio := (none, none), hasImagePrompts := false,
          sentPrompts := none, networkCalls := 1 }
      | .fulfilled raw =>
        let rewrittenText := jsTrim raw
        let prompts := extractPrompts rewrittenText
        let has : Bool := decide (prompts ≠ [])
        let sent : Option (List (List Char)) := if prompts ≠ [] then some prompts else none
        -- textForSpeech = stripBoth rewrittenText is the content of the
        -- second TTS request; the request body itself is external.
        match ttsOriginal with
        | .rejected m =>
          { error := some ("An error occurred: " ++ m),
            belfortText := some rewrittenText, generatedAudio := (none, none),
            hasImagePrompts := has, sentPrompts := sent, networkCalls := 3 }
        | .fulfilled ro =>
          match ttsBelfort with
          | .rejected m =>
            { error := some ("An error occurred: " ++ m),
              belfortText := some rewrittenText, generatedAudio := (none, none),
              hasImagePrompts := has, sentPrompts := sent, networkCalls := 3 }
          | .fulfilled rb =>
            match ro, rb with
            | some origB64, some belB64 =>
              match decodeFn origB64 with
              | .rejected m =>
                { error := some ("An error occurred: " ++ m),
                  belfortText := some rewrittenText,
                  generatedAudio := (none, none), hasImagePrompts := has,
                  sentPrompts := sent, networkCalls := 3 }
              | .fulfilled bufO =>
                match decodeFn belB64 with
                | .rejected m =>
                  { error := some ("An error occurred: " ++ m),
                    belfortText := some rewrittenText,
                    generatedAudio := (none, none), hasImagePrompts := has,
                    sentPrompts := sent, networkCalls := 3 }
                | .fulfilled bufB =>
                  { error := none, belfortText := some rewrittenText,
                    generatedAudio := (some bufO, some bufB),
                    hasImagePrompts := has, sentPrompts := sent,
                    networkCalls := 3 }
            | _, _ =>
              { error := some bothAudioFailMsg,
                belfortText := some rewrittenText,
                generatedAudio := (none, none), hasImagePrompts := has,
                sentPrompts := sent, networkCalls := 3 }

/-! ### `playAudio`: the playback controller

`playAudio` keeps a module-level mutable ref `audioContextRef`.  On each
call with a non-null buffer it (1) creates a context if the ref is empty,
(2) calls `close()` on the referenced context, and (3) registers a `then`
callback that creates a *fresh* context, stores it in the ref, and starts
the buffer on it.  Closing is asynchronous: the callback runs at some later
point of the event loop.  We model this with an explicit state and two
events: a `playAudio` call, and the completion of one pending close
(callbacks run in registration order).  Calling `close()` again on a
context whose close has not completed yet is allowed by the Web Audio API
(its state is still "running" until the close settles) and yields a second
promise that also resolves on completion — hence a context can carry
several pending close callbacks, each of which creates its own fresh
context when it runs. -/

/-- Status of one `AudioContext`. -/
inductive CtxStatus where
  | running
  | closing
  | closed
deriving DecidableEq, Repr

/-- One `AudioContext` with what is scheduled on it. -/
structure AudioCtx where
  status : CtxStatus
  playing : Option Nat
deriving DecidableEq, Repr

/-- State of the playback controller: every context ever created (index =
creation order), the current `audioContextRef`, and the queue of pending
close-callbacks (context being closed, buffer to start afterwards). -/
structure PlaybackState where
  ctxs : List AudioCtx
  ref : Option Nat
  pending : List (Nat × Nat)
deriving DecidableEq, Repr

def playbackInit : PlaybackState := { ctxs := [], ref := none, pending := [] }

/-- Mark context `i` with status `st`. -/
def setCtxStatus (ctxs : List AudioCtx) (i : Nat) (st : CtxStatus) : List AudioCtx :=
  ctxs.mapIdx (fun j c => if j = i then { c with status := st } else c)

/-- A `playAudio buffer` call (synchronous part).  `buffer = none` returns
immediately; otherwise: create a context if the ref is empty, then call
`close()` on the referenced context (it starts closing) and register the
then-callback. -/
def playAudio (buffer : Option Nat) (st : PlaybackState) : PlaybackState :=
  match buffer with
  | none => st
  | some buf =>
    let st1 : PlaybackState :=
      match st.ref with
      | none =>
        { st with ctxs := st.ctxs ++ [{ status := .running, playing := none }],
                  ref := some st.ctxs.length }
      | some _ => st
    match st1.ref with
    | some c =>
      { st1 with ctxs := setCtxStatus st1.ctxs c .closing,
                 pending := st1.pending ++ [(c, buf)] }
    | none => st1

/-- Completion of the oldest pending close: its context is now closed, and
the registered callback runs — it creates a fresh context, stores it in the
ref, and starts the buffer on it. -/
def closeResolves (st : PlaybackState) : PlaybackState :=
  match st.pending with
  | [] => st
  | (c, buf) :: rest =>
    let ctxs1 := setCtxStatus st.ctxs c .closed
    { ctxs := ctxs1 ++ [{ status := .running, playing := some buf }],
      ref := some ctxs1.length, pending := rest }

/-- The active (not closed, not closing) output resources of a state. -/
def activeCtxs (st : PlaybackState) : List AudioCtx :=
  st.ctxs.filter (fun c => c.status = .running)

/-- A leaked resource: an active context that the ref no longer points to
(nothing can ever close it again). -/
def leakedCtxs (st : PlaybackState) : List (Nat × AudioCtx) :=
  st.ctxs.enum.filter
    (fun p => p.2.status = .running && st.ref ≠ some p.1)

/-! ### VideoGenerator: `handleGenerateVideo`, `handleSelectKey` -/

/-- Status of the long-running video operation handle
(`operation.done`, `operation.response?.generatedVideos?.[0]?.video?.uri`). -/
structure VideoOp where
  done : Bool
  uri : Option String
deriving DecidableEq, Repr

/-- Events observable from the polling loop. -/
inductive VEvent where
  | wait (ms : Nat)
  | pollCall (i : Nat)
deriving DecidableEq, Repr

/-- The `while (!operation.done)` loop: wait 10 s, then
`ai.operations.getVideosOperation({operation})`.  `pollF i` is the
settlement of the `i`-th poll call (1-based); `fuel` bounds the number of
iterations that we unfold (`none` = the loop has not terminated within
`fuel` polls).  Returns the loop's result (the final operation, or the
rejection that propagated out of a poll call) and the event trace. -/
def pollLoop (pollF : Nat → FetchOutcome VideoOp) :
    Nat → VideoOp → Nat → Option (FetchOutcome VideoOp × List VEvent)
  | fuel, cur, i =>
    if cur.done then some (.fulfilled cur, [])
    else
      match fuel with
      | 0 => none
      | f + 1 =>
        match pollF (i + 1) with
        | .rejected m => some (.rejected m, [.wait 10000, .pollCall (i + 1)])
        | .fulfilled op =>
          match pollLoop pollF f op (i + 1) with
          | none => none
          | some (r, evs) => some (r, .wait 10000 :: .pollCall (i + 1) :: evs)

/-- The event trace of `d` poll cycles starting after poll number `i`:
each poll call is preceded by its fixed 10-second wait. -/
def pollEventsFrom : Nat → Nat → List VEvent
  | _, 0 => []
  | i, d + 1 => .wait 10000 :: .pollCall (i + 1) :: pollEventsFrom (i + 1) d

/-- Trace of a run whose `D`-th poll is the first to report `done`. -/
def pollEvents (D : Nat) : List VEvent := pollEventsFrom 0 D

/-- Number of poll calls in a trace. -/
def countPolls (evs : List VEvent) : Nat :=
  evs.countP (fun e => match e with | .pollCall _ => true | _ => false)

/-- The `catch` block of `handleGenerateVideo`: sets the generic error
message, then — if the message contains the "Requested entity was not
found" substring — overrides it with the invalid-key message and revokes
`apiKeySelected`.  Returns (error message, new apiKeySelected). -/
def videoCatch (msg : String) (apiKeySelected : Bool) : Option String × Bool :=
  if strIncludes msg entityNotFoundSub then (some invalidKeyMsg, false)
  else (some ("An error occurred: " ++ msg), apiKeySelected)

/-- Result of the artifact download `fetch`. -/
inductive DlResult where
  | ok
  | notOk (statusText : String)
  | netErr (msg : String)
deriving DecidableEq, Repr

/-- The observable outcome of one `handleGenerateVideo` run. -/
structure VideoRunState where
  error : Option String
  gotVideo : Bool
  apiKeySelected : Bool
  thrownMsg : Option String
  events : List VEvent
  networkCalls : Nat
deriving DecidableEq, Repr

/-- Model of `handleGenerateVideo` of `VideoGenerator`.  `hasImage` models
`imageFile` being set; `submit` is the settlement of `generateVideos`;
`pollF` the poll settlements; `download uri` the artifact `fetch` (the
stored credential is appended to the download URL as a query parameter).
Returns `none` when the polling loop has not terminated within `fuel`
cycles.  `thrownMsg` records the message caught by the `catch` block, if
any; `apiKeySelected` is threaded through from the component state. -/
def handleGenerateVideo (prompt : List Char) (hasImage : Bool)
    (apiKey : Option String) (apiKeySelected : Bool)
    (submit : FetchOutcome VideoOp) (pollF : Nat → FetchOutcome VideoOp)
    (fuel : Nat) (download : String → DlResult) : Option VideoRunState :=
  if jsTrim prompt = [] || !hasImage then
    some { error := some videoValidationMsg, gotVideo := false,
           apiKeySelected := apiKeySelected, thrownMsg := none,
           events := [], networkCalls := 0 }
  else
    match apiKey with
    | none =>
      some { error := some configErrorMsg, gotVideo := false,
             apiKeySelected := apiKeySelected, thrownMsg := none,
             events := [], networkCalls := 0 }
    | some key =>
      match submit with
      | .rejected m =>
        let (err, sel) := videoCatch m apiKeySelected
        some { error := err, gotVideo := false, apiKeySelected := sel,
               thrownMsg := some m, events := [], networkCalls := 1 }
      | .fulfilled op0 =>
        match pollLoop pollF fuel op0 0 with
        | none => none
        | some (.rejected m, evs) =>
          let (err, sel) := videoCatch m apiKeySelected
          some { error := err, gotVideo := false, apiKeySelected := sel,
                 thrownMsg := some m, events := evs,
                 networkCalls := 1 + countPolls evs }
        | some (.fulfilled opF, evs) =>
          match opF.uri with
          | none =>
            let (err, sel) := videoCatch noLinkMsg apiKeySelected
            some { error := err, gotVideo := false, apiKeySelected := sel,
                   thrownMsg := some noLinkMsg, events := evs,
                   networkCalls := 1 + countPolls evs }
          | some uri =>
            match download (uri ++ "&key=" ++ key) with
            | .netErr m =>
              let (err, sel) := videoCatch m apiKeySelected
              some { error := err, gotVideo := false, apiKeySelected := sel,
                     thrownMsg := some m, events := evs,
                     networkCalls := 2 + countPolls evs }
            | .notOk statusText =>
              let m := "Failed to download video: " ++ statusText
              let (err, sel) := videoCatch m apiKeySelected
              some { error := err, gotVideo := false, apiKeySelected := sel,
                     thrownMsg := some m, events := evs,
                     networkCalls := 2 + countPolls evs }
            | .ok =>
              some { error := none, gotVideo := true,
                     apiKeySelected := apiKeySelected, thrownMsg := none,
                     events := evs, networkCalls := 2 + countPolls evs }

/-- Model of `handleSelectKey`: `await window.aistudio.openSelectKey()`, then
`setApiKeySelected(true)` — the source comments "Assume success to avoid
race condition", i.e. the resolution value is ignored, so the flag is set
even when the user dismissed the dialog without selecting a credential.
The dialog's resolution carries `didSelect : Bool` (whether the user really
selected a key) precisely to express that the code never inspects it.
Input/output: (apiKeySelected, error). -/
def handleSelectKey (dialog : FetchOutcome Bool) (st : Bool × Option String) :
    Bool × Option String :=
  match dialog with
  | .fulfilled _ => (true, st.2)
  | .rejected _ => (st.1, some selectKeyFailMsg)

/-- The render gate of `VideoGenerator`: when `apiKeySelected` is false the
component renders only the key-selection screen, so generation cannot be
submitted. -/
def videoGeneratePaneVisible (apiKeySelected : Bool) : Bool := apiKeySelected

/-- A concrete all-fulfilled batch settlement with 3 extracted payloads. -/
def c1Values : List (Option InlineData) :=
  [some (InlineData.mk "image/png" "AA"), some (InlineData.mk "image/png" "BB"),
   none, some (InlineData.mk "image/png" "CC"), none]

/-- The concrete batch settlement refuting C2: the first request rejects,
the other four fulfill with extractable payloads. -/
def c2Outcomes : List (FetchOutcome (Option InlineData)) :=
  [.rejected "boom",
   .fulfilled (some ⟨"image/png", "AA"⟩), .fulfilled (some ⟨"image/png", "BB"⟩),
   .fulfilled (some ⟨"image/png", "CC"⟩), .fulfilled (some ⟨"image/png", "DD"⟩)]

/-! ### C6: poller termination -/

/-- A poll settlement that fulfilled with a not-yet-done operation. -/
def fulfilledNotDone : FetchOutcome VideoOp → Bool
  | .fulfilled op => !op.done
  | .rejected _ => false

/-- A simulated job that becomes done on the second poll. -/
def c6PollF : Nat → FetchOutcome VideoOp :=
  fun i => .fulfilled { done := decide (2 ≤ i), uri := some "gs://video" }

/-! ### C9: speech audio pipeline is all-or-nothing -/

/-- An audio request that "failed" in the sense of C9: it rejected, or it
settled without the inline audio payload. -/
def audioMissing : FetchOutcome (Option String) → Bool
  | .rejected _ => true
  | .fulfilled none => true
  | .fulfilled (some _) => false

/-! ## Theorems -/

/-! ### Length lemmas: every successful match consumes at least one char -/

theorem matchLit_length {p s r : List Char} (h : matchLit p s = some r) :
    r.length + p.length = s.length := by
  induction p generalizing s with
  | nil => cases h; simp
  | cons a ps ih =>
    cases s with
    | nil => simp [matchLit] at h
    | cons c cs =>
      simp only [matchLit] at h
      by_cases hc : c = a
      · simp [hc] at h
        have := ih h
        simp [List.length_cons]
        omega
      · simp [hc] at h

theorem matchMarker_lt {s mk rest : List Char}
    (h : matchMarker s = some (mk, rest)) : rest.length < s.length := by
  unfold matchMarker at h
  split at h
  · exact absurd h (by simp)
  · rename_i r0 hl
    split at h
    · exact absurd h (by simp)
    · rename_i d ds r2 ht hd
      simp only [Option.some.injEq, Prod.mk.injEq] at h
      have hlen := matchLit_length hl
      have hsplit : r0.takeWhile reDigit ++ r0.dropWhile reDigit = r0 :=
        List.takeWhile_append_dropWhile reDigit r0
      have hr0 : r0.length = (d :: ds).length + (']' :: r2).length := by
        rw [← hsplit, ht, hd, List.length_append]
      have hrest : rest = r2 := h.2.symm
      subst hrest
      simp [markerLit] at hlen
      simp [List.length_cons] at hr0
      omega
    · exact absurd h (by simp)

theorem bodyStrip_lt {s r : List Char} (h : bodyStrip s = some r) :
    r.length < s.length := by
  induction s with
  | nil => simp [bodyStrip] at h
  | cons c cs ih =>
    simp only [bodyStrip] at h
    by_cases hc : c = '\n'
    · simp [hc] at h; subst h; simp
    · rw [if_neg hc] at h
      by_cases hl : isLineTerm c = true
      · rw [if_pos hl] at h
        exact Option.noConfusion h
      · rw [if_neg hl] at h
        have := ih h
        simp; omega

theorem tryKsStrip_le {ks : List Nat} {rest r : List Char}
    (h : tryKsStrip ks rest = some r) : r.length ≤ rest.length := by
  induction ks with
  | nil => simp [tryKsStrip] at h
  | cons k ks ih =>
    simp only [tryKsStrip] at h
    cases hb : bodyStrip (rest.drop (k + 1)) with
    | some r' =>
      rw [hb] at h
      cases h
      have h1 := le_of_lt (bodyStrip_lt hb)
      have h2 : (rest.drop (k + 1)).length ≤ rest.length := by
        rw [List.length_drop]; omega
      omega
    | none =>
      rw [hb] at h
      exact ih h

theorem stripMatchAt_lt {s mk r : List Char}
    (h : stripMatchAt s = some (mk, r)) : r.length < s.length := by
  unfold stripMatchAt at h
  split at h
  · exact absurd h (by simp)
  · rename_i mr mk' rest hm
    split at h
    · rename_i r' ht
      simp only [Option.some.injEq, Prod.mk.injEq] at h
      have h1 := matchMarker_lt hm
      have h2 := tryKsStrip_le ht
      have : r = r' := h.2.symm
      subst this
      omega
    · exact absurd h (by simp)

/-! ### Fuel irrelevance and unfolding equations for the scanners -/

theorem scanCollectF_irrel {m : List Char → Option (List Char × List Char)}
    {emit : List Char → List Char}
    (hm : ∀ s b r, m s = some (b, r) → r.length < s.length) :
    ∀ f g s, s.length ≤ f → s.length ≤ g →
      scanCollectF m emit f s = scanCollectF m emit g s := by
  intro f
  induction f with
  | zero =>
    intro g s hf _
    have : s = [] := List.length_eq_zero.mp (Nat.le_zero.mp hf)
    subst this
    cases g <;> rfl
  | succ f ih =>
    intro g s hf hg
    cases s with
    | nil => cases g <;> rfl
    | cons c cs =>
      cases g with
      | zero => simp at hg
      | succ g' =>
        simp only [scanCollectF]
        cases hmc : m (c :: cs) with
        | some br =>
          obtain ⟨b, rest⟩ := br
          have hlt := hm _ _ _ hmc
          simp only []
          rw [ih g' rest (by simp at hlt hf ⊢; omega) (by simp at hlt hg ⊢; omega)]
        | none =>
          exact ih g' cs (by simp at hf; omega) (by simp at hg; omega)

theorem scanRewriteF_irrel {m : List Char → Option (List Char × List Char)}
    {rep : List Char → List Char}
    (hm : ∀ s b r, m s = some (b, r) → r.length < s.length) :
    ∀ f g s, s.length ≤ f → s.length ≤ g →
      scanRewriteF m rep f s = scanRewriteF m rep g s := by
  intro f
  induction f with
  | zero =>
    intro g s hf _
    have : s = [] := List.length_eq_zero.mp (Nat.le_zero.mp hf)
    subst this
    cases g <;> rfl
  | succ f ih =>
    intro g s hf hg
    cases s with
    | nil => cases g <;> rfl
    | cons c cs =>
      cases g with
      | zero => simp at hg
      | succ g' =>
        simp only [scanRewriteF]
        cases hmc : m (c :: cs) with
        | some br =>
          obtain ⟨b, rest⟩ := br
          have hlt := hm _ _ _ hmc
          simp only []
          rw [ih g' rest (by simp at hlt hf ⊢; omega) (by simp at hlt hg ⊢; omega)]
        | none =>
          rw [ih g' cs (by simp at hf; omega) (by simp at hg; omega)]

theorem extractPrompts_nil : extractPrompts [] = [] := rfl

theorem extractPrompts_skip {c : Char} {cs : List Char}
    (h : promptMatchAt (c :: cs) = none) :
    extractPrompts (c :: cs) = extractPrompts cs := by
  unfold extractPrompts
  simp only [List.length_cons, scanCollectF, h]

theorem markerOccurrences_nil : markerOccurrences [] = [] := rfl

theorem markerOccurrences_match {c : Char} {cs mk rest : List Char}
    (h : matchMarker (c :: cs) = some (mk, rest)) :
    markerOccurrences (c :: cs) = mk :: markerOccurrences rest := by
  unfold markerOccurrences
  simp only [List.length_cons, scanCollectF, h]
  have hlt := matchMarker_lt h
  rw [scanCollectF_irrel (fun s b r hh => matchMarker_lt hh) cs.length rest.length rest
    (by simp at hlt; omega) (le_refl _)]
  simp

theorem markerOccurrences_skip {c : Char} {cs : List Char}
    (h : matchMarker (c :: cs) = none) :
    markerOccurrences (c :: cs) = markerOccurrences cs := by
  unfold markerOccurrences
  simp only [List.length_cons, scanCollectF, h]

theorem stripPromptLines_nil : stripPromptLines [] = [] := rfl

theorem stripPromptLines_match {c : Char} {cs mk rest : List Char}
    (h : stripMatchAt (c :: cs) = some (mk, rest)) :
    stripPromptLines (c :: cs) = (mk ++ ['\n']) ++ stripPromptLines rest := by
  unfold stripPromptLines
  simp only [List.length_cons, scanRewriteF, h]
  have hlt := stripMatchAt_lt h
  rw [scanRewriteF_irrel (fun s b r hh => stripMatchAt_lt hh) cs.length rest.length rest
    (by simp at hlt; omega) (le_refl _)]

theorem stripPromptLines_skip {c : Char} {cs : List Char}
    (h : stripMatchAt (c :: cs) = none) :
    stripPromptLines (c :: cs) = c :: stripPromptLines cs := by
  unfold stripPromptLines
  simp only [List.length_cons, scanRewriteF, h]

/-! ### Structure of the scanners on marker blocks

These lemmas characterise the scanners on texts built from well-formed
`[IMAGE n]` blocks, prose, and dangling markers; they drive the cue-
extraction claims. -/

theorem takeWhile_append_of_all {q : Char → Bool} {a : List Char}
    (b : List Char) (h : ∀ c ∈ a, q c = true) :
    (a ++ b).takeWhile q = a ++ b.takeWhile q := by
  induction a with
  | nil => simp
  | cons x xs ih =>
    have hx : q x = true := h x (by simp)
    simp only [List.cons_append, List.takeWhile_cons, hx, if_true]
    rw [ih (fun c hc => h c (by simp [hc]))]

theorem mem_of_mem_takeWhile' {q : Char → Bool} {c : Char} {l : List Char}
    (h : c ∈ l.takeWhile q) : c ∈ l := by
  induction l with
  | nil => simp at h
  | cons x xs ih =>
    by_cases hx : q x = true
    · simp only [List.takeWhile_cons, hx, if_true, List.mem_cons] at h
      rcases h with rfl | h
      · simp
      · simp [ih h]
    · have hx' : q x = false := by
        cases hqx : q x
        · rfl
        · exact absurd hqx hx
      simp [List.takeWhile_cons, hx'] at h

theorem dropWhile_append_of_all {q : Char → Bool} {a : List Char}
    (b : List Char) (h : ∀ c ∈ a, q c = true) :
    (a ++ b).dropWhile q = b.dropWhile q := by
  induction a with
  | nil => simp
  | cons x xs ih =>
    have hx : q x = true := h x (by simp)
    simp only [List.cons_append, List.dropWhile_cons, hx, if_true]
    exact ih (fun c hc => h c (by simp [hc]))

theorem takeWhile_nil_of_noLead {p : List Char} (b : List Char)
    (hp : p ≠ []) (h : noLeadWs p = true) :
    (p ++ b).takeWhile isJsSpace = [] := by
  cases p with
  | nil => exact absurd rfl hp
  | cons c cs =>
    simp only [noLeadWs, Bool.not_eq_true'] at h
    simp [List.takeWhile_cons, h]

theorem matchLit_self (p : List Char) : ∀ s, matchLit p (p ++ s) = some s := by
  induction p with
  | nil => intro s; rfl
  | cons c cs ih => intro s; simp [matchLit, ih]

theorem matchMarker_block {n : List Char} (rest : List Char) (hn : n ≠ [])
    (hd : ∀ c ∈ n, reDigit c = true) :
    matchMarker (markerLit ++ n ++ ']' :: rest)
      = some (markerLit ++ n ++ [']'], rest) := by
  unfold matchMarker
  rw [List.append_assoc, matchLit_self]
  simp only []
  have ht : (n ++ ']' :: rest).takeWhile reDigit = n := by
    rw [takeWhile_append_of_all _ hd]
    have : (']' :: rest).takeWhile reDigit = [] := by
      simp [List.takeWhile_cons, show reDigit ']' = false from rfl]
    rw [this, List.append_nil]
  have hdp : (n ++ ']' :: rest).dropWhile reDigit = ']' :: rest := by
    rw [dropWhile_append_of_all _ hd]
    simp [List.dropWhile_cons, show reDigit ']' = false from rfl]
  rw [ht, hdp]
  cases n with
  | nil => exact absurd rfl hn
  | cons d ds => simp

theorem matchMarker_cons_ne {c : Char} (cs : List Char) (h : c ≠ '[') :
    matchMarker (c :: cs) = none := by
  unfold matchMarker
  have : matchLit markerLit (c :: cs) = none := by
    simp [markerLit, matchLit, h]
  rw [this]

theorem matchMarker_nil : matchMarker [] = none := rfl

/-! `lastNlIdx`, `consumeTailWsNl` and the lazy bodies. -/

theorem lastNlIdx_eq_none_of_no_nl {l : List Char} (h : '\n' ∉ l) :
    lastNlIdx l = none := by
  induction l with
  | nil => rfl
  | cons c cs ih =>
    have hc : c ≠ '\n' := fun hh => h (by simp [hh])
    have hcs : '\n' ∉ cs := fun hh => h (by simp [hh])
    simp [lastNlIdx, ih hcs, hc]

theorem consumeTailWsNl_eq_none_of_run {s : List Char}
    (h : '\n' ∉ s.takeWhile isJsSpace) : consumeTailWsNl s = none := by
  unfold consumeTailWsNl
  rw [lastNlIdx_eq_none_of_no_nl h]

theorem consumeTailWsNl_eq_none_of_no_nl {s : List Char} (h : '\n' ∉ s) :
    consumeTailWsNl s = none :=
  consumeTailWsNl_eq_none_of_run (fun hh => h (mem_of_mem_takeWhile' hh))

theorem bodyMatch_none_of_no_nl {s : List Char} (h : '\n' ∉ s) :
    ∀ acc, bodyMatch acc s = none := by
  induction s with
  | nil => intro acc; rfl
  | cons c cs ih =>
    intro acc
    have hcs : '\n' ∉ cs := fun hh => h (by simp [hh])
    simp only [bodyMatch, consumeTailWsNl_eq_none_of_no_nl h]
    by_cases hl : isLineTerm c = true
    · rw [if_pos hl]
    · rw [if_neg hl]
      exact ih hcs (c :: acc)

theorem bodyStrip_through {p : List Char} (rest : List Char)
    (hlt : ∀ c ∈ p, isLineTerm c = false) :
    bodyStrip (p ++ '\n' :: rest) = some rest := by
  induction p with
  | nil => rfl
  | cons c p' ih =>
    have hc : isLineTerm c = false := hlt c (by simp)
    have hcne : c ≠ '\n' := fun hh => by
      rw [hh] at hc
      exact absurd hc (by decide)
    have hlt' : ∀ d ∈ p', isLineTerm d = false := fun d hd => hlt d (by simp [hd])
    simp [bodyStrip, hcne, hc, ih hlt']

/-! Anchored match attempts on a well-formed block and at non-`[` heads. -/

theorem stripMatchAt_block {n p : List Char} (rest : List Char) (hn : n ≠ [])
    (hd : ∀ c ∈ n, reDigit c = true) (hp : p ≠ []) (hlead : noLeadWs p = true)
    (hlt : ∀ c ∈ p, isLineTerm c = false) :
    stripMatchAt (markerLit ++ n ++ ']' :: '\n' :: (p ++ '\n' :: rest))
      = some (markerLit ++ n ++ [']'], rest) := by
  unfold stripMatchAt
  rw [matchMarker_block _ hn hd]
  simp only []
  have hrun : ('\n' :: (p ++ '\n' :: rest)).takeWhile isJsSpace = ['\n'] := by
    simp only [List.takeWhile_cons, show isJsSpace '\n' = true from rfl, if_true]
    rw [takeWhile_nil_of_noLead _ hp hlead]
  rw [hrun, show nlIdxsDesc ['\n'] = [0] from rfl]
  unfold tryKsStrip
  simp only [List.drop_succ_cons, List.drop_zero]
  rw [bodyStrip_through rest hlt]

theorem promptMatchAt_cons_ne {c : Char} {cs : List Char} (h : c ≠ '[') :
    promptMatchAt (c :: cs) = none := by
  unfold promptMatchAt
  rw [matchMarker_cons_ne cs h]

theorem stripMatchAt_cons_ne {c : Char} {cs : List Char} (h : c ≠ '[') :
    stripMatchAt (c :: cs) = none := by
  unfold stripMatchAt
  rw [matchMarker_cons_ne cs h]

/-! Scanning past text that contains no `[`. -/

theorem extractPrompts_append_no_lb {s : List Char} (r : List Char)
    (h : '[' ∉ s) : extractPrompts (s ++ r) = extractPrompts r := by
  induction s with
  | nil => simp
  | cons c cs ih =>
    have hc : c ≠ '[' := fun hh => h (by simp [hh])
    have hcs : '[' ∉ cs := fun hh => h (by simp [hh])
    rw [List.cons_append, extractPrompts_skip (promptMatchAt_cons_ne hc), ih hcs]

theorem extractPrompts_eq_nil_of_no_lb {s : List Char} (h : '[' ∉ s) :
    extractPrompts s = [] := by
  have h2 := extractPrompts_append_no_lb [] h
  rw [List.append_nil] at h2
  rw [h2, extractPrompts_nil]

theorem markerOccurrences_append_no_lb {s : List Char} (r : List Char)
    (h : '[' ∉ s) : markerOccurrences (s ++ r) = markerOccurrences r := by
  induction s with
  | nil => simp
  | cons c cs ih =>
    have hc : c ≠ '[' := fun hh => h (by simp [hh])
    have hcs : '[' ∉ cs := fun hh => h (by simp [hh])
    rw [List.cons_append, markerOccurrences_skip (matchMarker_cons_ne _ hc), ih hcs]

theorem markerOccurrences_eq_nil_of_no_lb {s : List Char} (h : '[' ∉ s) :
    markerOccurrences s = [] := by
  have h2 := markerOccurrences_append_no_lb [] h
  rw [List.append_nil] at h2
  rw [h2, markerOccurrences_nil]

theorem stripPromptLines_append_no_lb {s : List Char} (r : List Char)
    (h : '[' ∉ s) : stripPromptLines (s ++ r) = s ++ stripPromptLines r := by
  induction s with
  | nil => simp
  | cons c cs ih =>
    have hc : c ≠ '[' := fun hh => h (by simp [hh])
    have hcs : '[' ∉ cs := fun hh => h (by simp [hh])
    rw [List.cons_append, stripPromptLines_skip (stripMatchAt_cons_ne hc), ih hcs,
      List.cons_append]

/-! Failure of the prompt regex on a dangling marker (at most one newline
follows it, so the mandatory `(.*?)\s*\n` after the marker's `\s*\n` cannot
be satisfied). -/

theorem mem_nlIdxs {l : List Char} {i : Nat} (h : i ∈ nlIdxs l) :
    l.get? i = some '\n' := by
  induction l generalizing i with
  | nil => simp [nlIdxs] at h
  | cons c cs ih =>
    simp only [nlIdxs, List.mem_append, List.mem_map] at h
    rcases h with h | ⟨j, hj, rfl⟩
    · by_cases hc : c = '\n'
      · simp only [hc, if_true, List.mem_singleton] at h
        subst h
        simp [hc]
      · simp [hc] at h
    · simp only [List.get?_cons_succ]
      exact ih hj

theorem get?_takeWhile {q : Char → Bool} {l : List Char} {k : Nat} {a : Char}
    (h : (l.takeWhile q).get? k = some a) : l.get? k = some a := by
  induction l generalizing k with
  | nil => simp at h
  | cons c cs ih =>
    by_cases hc : q c = true
    · rw [List.takeWhile_cons, if_pos hc] at h
      cases k with
      | zero => simpa using h
      | succ m =>
        simp only [List.get?_cons_succ] at h ⊢
        exact ih h
    · rw [List.takeWhile_cons, if_neg hc] at h
      simp at h

theorem no_nl_in_drop {tail : List Char} {k : Nat}
    (hk : tail.get? k = some '\n') (hc : tail.count '\n' ≤ 1) :
    '\n' ∉ tail.drop (k + 1) := by
  intro hmem
  have hsplit : tail.take (k + 1) ++ tail.drop (k + 1) = tail :=
    List.take_append_drop _ _
  have h1 : '\n' ∈ tail.take (k + 1) := by
    have hg : (tail.take (k + 1)).get? k = some '\n' := by
      rw [List.get?_eq_getElem?, List.getElem?_take_of_lt (by omega),
        ← List.get?_eq_getElem?]
      exact hk
    exact List.get?_mem hg
  have hcount : tail.count '\n'
      = (tail.take (k + 1)).count '\n' + (tail.drop (k + 1)).count '\n' := by
    conv_lhs => rw [← hsplit]
    exact List.count_append _ _ _
  have t1 : (tail.take (k + 1)).count '\n' ≠ 0 :=
    fun h0 => (List.count_eq_zero.mp h0) h1
  have t2 : (tail.drop (k + 1)).count '\n' ≠ 0 :=
    fun h0 => (List.count_eq_zero.mp h0) hmem
  omega

theorem tryKsPrompt_none_of_all {ks : List Nat} {rest : List Char}
    (h : ∀ k ∈ ks, bodyMatch [] (rest.drop (k + 1)) = none) :
    tryKsPrompt ks rest = none := by
  induction ks with
  | nil => rfl
  | cons k ks ih =>
    simp only [tryKsPrompt, h k (by simp)]
    exact ih (fun k' hk' => h k' (by simp [hk']))

theorem promptMatchAt_dangling {n tail : List Char} (hn : n ≠ [])
    (hd : ∀ c ∈ n, reDigit c = true) (hc : tail.count '\n' ≤ 1) :
    promptMatchAt (markerLit ++ n ++ ']' :: tail) = none := by
  unfold promptMatchAt
  rw [matchMarker_block _ hn hd]
  simp only []
  apply tryKsPrompt_none_of_all
  intro k hk
  have hk' : k ∈ nlIdxs (tail.takeWhile isJsSpace) := by
    simpa [nlIdxsDesc] using hk
  have hg : tail.get? k = some '\n' := get?_takeWhile (mem_nlIdxs hk')
  apply bodyMatch_none_of_no_nl
  exact no_nl_in_drop hg hc

/-! Where the scan resumes after a block match. -/

theorem extractPrompts_skip' {s : List Char} (h : promptMatchAt s = none)
    (hs : s ≠ []) : ∃ c cs, s = c :: cs ∧ extractPrompts s = extractPrompts cs := by
  cases s with
  | nil => exact absurd rfl hs
  | cons c cs => exact ⟨c, cs, rfl, extractPrompts_skip h⟩

theorem stripPromptLines_match' {s mk rest : List Char}
    (h : stripMatchAt s = some (mk, rest)) (hs : s ≠ []) :
    stripPromptLines s = (mk ++ ['\n']) ++ stripPromptLines rest := by
  cases s with
  | nil => exact absurd rfl hs
  | cons c cs => exact stripPromptLines_match h

theorem markerOccurrences_match' {s mk rest : List Char}
    (h : matchMarker s = some (mk, rest)) (hs : s ≠ []) :
    markerOccurrences s = mk :: markerOccurrences rest := by
  cases s with
  | nil => exact absurd rfl hs
  | cons c cs => exact markerOccurrences_match h

/-- A marker followed by at most one newline (no completed prompt line)
never matches: the scan over such a text yields no prompts. -/
theorem extractPrompts_dangling_marker (pre n tail : List Char)
    (hpre : '[' ∉ pre) (hn : n ≠ []) (hd : ∀ c ∈ n, reDigit c = true)
    (htail : '[' ∉ tail) (hcnt : tail.count '\n' ≤ 1) :
    extractPrompts (pre ++ (markerLit ++ n ++ ']' :: tail)) = [] := by
  rw [extractPrompts_append_no_lb _ hpre]
  obtain ⟨c, cs, hform, hskip⟩ :=
    extractPrompts_skip' (promptMatchAt_dangling hn hd hcnt)
      (by simp [markerLit])
  rw [hskip]
  apply extractPrompts_eq_nil_of_no_lb
  have hnolb : '[' ∉ ['I', 'M', 'A', 'G', 'E', ' '] ++ n ++ ']' :: tail := by
    intro hh
    rcases List.mem_append.mp hh with hh' | hh'
    · rcases List.mem_append.mp hh' with hh'' | hh''
      · simp at hh''
      · have := hd _ hh''
        exact absurd this (by decide)
    · rcases List.mem_cons.mp hh' with hh'' | hh''
      · cases hh''
      · exact htail hh''
  have hshape : c :: cs
      = '[' :: (['I', 'M', 'A', 'G', 'E', ' '] ++ n ++ ']' :: tail) := by
    rw [← hform]
    simp [markerLit]
  have hcs : cs = ['I', 'M', 'A', 'G', 'E', ' '] ++ n ++ ']' :: tail := by
    injection hshape with h1 h2
  rwa [hcs]

/-- Counterexample to C4 as stated: for `"[IMAGE 1]\nA\nB\n"` (one
well-formed block whose prompt line is `A`, followed by the prose line
`B`), `stripPromptLines` keeps the marker and removes the prompt line — but
re-scanning the stripped text `"[IMAGE 1]\nB\n"` now extracts `B`, the line
that moved up behind the marker: the marker lines are preserved but the
prompt count is 1, not 0. -/
theorem strip_then_rescan_cex :
    extractPrompts "[IMAGE 1]\nA\nB\n".data = ["A".data] ∧
    stripPromptLines "[IMAGE 1]\nA\nB\n".data = "[IMAGE 1]\nB\n".data ∧
    markerOccurrences (stripPromptLines "[IMAGE 1]\nA\nB\n".data)
      = markerOccurrences "[IMAGE 1]\nA\nB\n".data ∧
    extractPrompts (stripPromptLines "[IMAGE 1]\nA\nB\n".data) = ["B".data] ∧
    (["B".data] : List (List Char)) ≠ [] := by
  decide

/-- C4 (amended): for a prompt line free of line terminators (the regex's
`.` cannot cross a newline or carriage return, so a line-terminator inside
the prompt makes the strip regex fail and leaves the text unchanged), the
stripped output contains exactly the marker lines of the original, but
re-scanning extracts the line that now follows each marker (when it is a
completed, newline-terminated line).  Zero prompts hold only when no
completed line follows any marker in the stripped text — e.g. when the
sole block sits at the very end of the text: then `stripPromptLines` keeps
the marker, drops the prompt line, and the re-scan sees the same marker
occurrences and zero extractable prompts. -/
theorem strip_then_rescan (prose n p : List Char) (hpre : '[' ∉ prose)
    (hn : n ≠ []) (hd : ∀ c ∈ n, reDigit c = true) (hp : p ≠ [])
    (hlead : noLeadWs p = true) (hlt : ∀ c ∈ p, isLineTerm c = false)
    (hlb : '[' ∉ p) :
    markerOccurrences (stripPromptLines (prose ++ imageBlock n p))
      = markerOccurrences (prose ++ imageBlock n p) ∧
    extractPrompts (stripPromptLines (prose ++ imageBlock n p)) = [] := by
  have hblock : imageBlock n p
      = markerLit ++ n ++ ']' :: '\n' :: (p ++ '\n' :: []) := rfl
  have hsm : stripMatchAt (imageBlock n p)
      = some (markerLit ++ n ++ [']'], []) := by
    rw [hblock]
    exact stripMatchAt_block [] hn hd hp hlead hlt
  have hstrip : stripPromptLines (prose ++ imageBlock n p)
      = prose ++ ((markerLit ++ n ++ [']']) ++ ['\n']) := by
    rw [stripPromptLines_append_no_lb _ hpre,
      stripPromptLines_match' hsm (by rw [hblock]; simp [markerLit]),
      stripPromptLines_nil, List.append_nil]
  have hmmblock : matchMarker (imageBlock n p)
      = some (markerLit ++ n ++ [']'], '\n' :: (p ++ '\n' :: [])) := by
    rw [hblock]
    exact matchMarker_block _ hn hd
  have horig : markerOccurrences (prose ++ imageBlock n p)
      = [markerLit ++ n ++ [']']] := by
    rw [markerOccurrences_append_no_lb _ hpre,
      markerOccurrences_match' hmmblock (by rw [hblock]; simp [markerLit]),
      markerOccurrences_eq_nil_of_no_lb
        (show '[' ∉ '\n' :: (p ++ '\n' :: []) by simpa using hlb)]
  have hshape : (markerLit ++ n ++ [']']) ++ ['\n']
      = markerLit ++ n ++ ']' :: ['\n'] := by simp
  have hstripm : markerOccurrences
      (prose ++ ((markerLit ++ n ++ [']']) ++ ['\n']))
      = [markerLit ++ n ++ [']']] := by
    rw [markerOccurrences_append_no_lb _ hpre, hshape,
      markerOccurrences_match' (matchMarker_block ['\n'] hn hd)
        (by simp [markerLit]),
      markerOccurrences_eq_nil_of_no_lb (by decide)]
  refine ⟨?_, ?_⟩
  · rw [hstrip, hstripm, horig]
  · rw [hstrip, hshape]
    exact extractPrompts_dangling_marker prose n ['\n'] hpre hn hd
      (by decide) (by decide)

/-- Witness for the amended C4: a single block at the end of the text. -/
theorem strip_then_rescan_witness :
    markerOccurrences (stripPromptLines ("Hello.\n".data ++ imageBlock ['1'] "A lion".data))
      = markerOccurrences ("Hello.\n".data ++ imageBlock ['1'] "A lion".data) ∧
    extractPrompts (stripPromptLines ("Hello.\n".data ++ imageBlock ['1'] "A lion".data))
      = [] :=
  strip_then_rescan "Hello.\n".data ['1'] "A lion".data (by decide) (by decide)
    (by decide) (by decide) (by decide) (by decide) (by decide)

theorem pollLoop_done (pollF : Nat → FetchOutcome VideoOp) (fuel : Nat)
    (cur : VideoOp) (i : Nat) (h : cur.done = true) :
    pollLoop pollF fuel cur i = some (.fulfilled cur, []) := by
  unfold pollLoop
  rw [if_pos h]

theorem pollLoop_poll_rejected (pollF : Nat → FetchOutcome VideoOp) (f : Nat)
    (cur : VideoOp) (i : Nat) (m : String) (h : cur.done = false)
    (hp : pollF (i + 1) = .rejected m) :
    pollLoop pollF (f + 1) cur i
      = some (.rejected m, [.wait 10000, .pollCall (i + 1)]) := by
  unfold pollLoop
  rw [if_neg (by simp [h]), hp]

theorem pollLoop_step (pollF : Nat → FetchOutcome VideoOp) (f : Nat)
    (cur : VideoOp) (i : Nat) (op : VideoOp) (h : cur.done = false)
    (hp : pollF (i + 1) = .fulfilled op) :
    pollLoop pollF (f + 1) cur i =
      match pollLoop pollF f op (i + 1) with
      | none => none
      | some (r, evs) => some (r, .wait 10000 :: .pollCall (i + 1) :: evs) := by
  conv_lhs => unfold pollLoop
  rw [if_neg (by simp [h]), hp]

/-! ### Helper lemmas for the fan-out claims -/

theorem promiseAll_map_fulfilled {α : Type} (values : List α) :
    promiseAll (values.map FetchOutcome.fulfilled) = .fulfilled values := by
  induction values with
  | nil => rfl
  | cons v vs ih => simp [promiseAll, ih]

theorem filterMap_dataUrl_length (values : List (Option InlineData)) :
    (values.filterMap (fun v => v.map dataUrl)).length
      = values.countP (fun v => v.isSome) := by
  induction values with
  | nil => rfl
  | cons v vs ih =>
    cases v with
    | none => simpa [List.countP_cons] using ih
    | some d => simp [List.countP_cons, ih]

/-- The number of images shown equals the number of responses whose payload
was extracted, in every all-fulfilled run (a missing payload is an
individual failure, never fatal). -/
theorem handleGenerateImage_urls_length (prompt : List Char) (key : String)
    (values : List (Option InlineData)) (hp : jsTrim prompt ≠ []) :
    (handleGenerateImage prompt (some key)
        (values.map FetchOutcome.fulfilled)).imageUrls.length
      = values.countP (fun v => v.isSome) := by
  unfold handleGenerateImage
  rw [if_neg hp, promiseAll_map_fulfilled]
  simp only []
  rw [← filterMap_dataUrl_length values]
  by_cases h0 : 0 < (values.filterMap (fun v => v.map dataUrl)).length
  · rw [if_pos h0]
    by_cases h5 : (values.filterMap (fun v => v.map dataUrl)).length < 5
    · rw [if_pos h5]
    · rw [if_neg h5]
  · rw [if_neg h0]
    have hlen0 : (values.filterMap (fun v => v.map dataUrl)).length = 0 := by omega
    simp [hlen0]

/-- C1: For the image batch fan-out with attempted count K=5, letting s be
the number of responses from which a binary payload was successfully
extracted: the aggregate result is Success (all artifacts shown, no error
notice) iff s = 5; PartialSuccess (s artifacts shown plus a non-fatal
"generated s of 5" notice) iff 0 < s < 5; and Failure ("no artifacts
produced", nothing shown) iff s = 0. -/
theorem image_fanout_classification (prompt : List Char) (key : String)
    (values : List (Option InlineData)) (st : ImageRunState) (s : Nat)
    (hp : jsTrim prompt ≠ []) (hlen : values.length = 5)
    (hst : handleGenerateImage prompt (some key)
      (values.map FetchOutcome.fulfilled) = st)
    (hs : values.countP (fun v => v.isSome) = s) :
    ((st.imageUrls.length = 5 ∧ st.error = none) ↔ s = 5) ∧
    ((st.imageUrls.length = s ∧ st.error = some (imagePartialNotice s)) ↔
      (0 < s ∧ s < 5)) ∧
    ((st.imageUrls = [] ∧ st.error = some imageFailureMsg) ↔ s = 0) := by
  subst hs
  have hcount : values.countP (fun v => v.isSome) ≤ 5 := by
    calc values.countP (fun v => v.isSome) ≤ values.length := List.countP_le_length _
    _ = 5 := hlen
  have hurls := filterMap_dataUrl_length values
  unfold handleGenerateImage at hst
  rw [if_neg hp, promiseAll_map_fulfilled] at hst
  simp only [] at hst
  rw [hurls] at hst
  by_cases hz : values.countP (fun v => v.isSome) = 0
  · rw [if_neg (by omega)] at hst
    subst hst
    have hmsg : imageFailureMsg ≠ imagePartialNotice 0 := by decide
    refine ⟨by simp [hz], ?_, by simp [hz]⟩
    simp only [hz]
    constructor
    · rintro ⟨_, hcontra⟩
      simp only [Option.some.injEq] at hcontra
      exact absurd hcontra hmsg
    · intro h
      omega
  · by_cases h5 : values.countP (fun v => v.isSome) < 5
    · rw [if_pos (by omega), if_pos h5] at hst
      subst hst
      refine ⟨?_, ?_, ?_⟩
      · constructor
        · rintro ⟨_, hcontra⟩
          exact absurd hcontra (by simp)
        · intro h
          omega
      · have h0 : 0 < values.countP (fun v => v.isSome) := by omega
        simp [hurls, h5, h0]
      · constructor
        · rintro ⟨h, _⟩
          have := congrArg List.length h
          simp only [List.length_nil] at this
          rw [hurls] at this
          omega
        · intro h
          omega
    · rw [if_pos (by omega), if_neg h5] at hst
      subst hst
      have heq : values.countP (fun v => v.isSome) = 5 := by omega
      refine ⟨by simp [hurls, heq], ?_, ?_⟩
      · constructor
        · rintro ⟨_, hcontra⟩
          exact absurd hcontra (by simp)
        · intro h
          omega
      · constructor
        · rintro ⟨h, _⟩
          have := congrArg List.length h
          simp only [List.length_nil] at this
          rw [hurls] at this
          omega
        · intro h
          omega

/-- Witness for C1 at a concrete run with s = 3 extracted payloads. -/
theorem image_fanout_classification_witness :
    (((handleGenerateImage "pen".data (some "k")
        (c1Values.map FetchOutcome.fulfilled)).imageUrls.length = 5 ∧
      (handleGenerateImage "pen".data (some "k")
        (c1Values.map FetchOutcome.fulfilled)).error = none) ↔ (3 : Nat) = 5) ∧
    (((handleGenerateImage "pen".data (some "k")
        (c1Values.map FetchOutcome.fulfilled)).imageUrls.length = 3 ∧
      (handleGenerateImage "pen".data (some "k")
        (c1Values.map FetchOutcome.fulfilled)).error =
        some (imagePartialNotice 3)) ↔ ((0 : Nat) < 3 ∧ (3 : Nat) < 5)) ∧
    (((handleGenerateImage "pen".data (some "k")
        (c1Values.map FetchOutcome.fulfilled)).imageUrls = [] ∧
      (handleGenerateImage "pen".data (some "k")
        (c1Values.map FetchOutcome.fulfilled)).error =
        some imageFailureMsg) ↔ (3 : Nat) = 0) :=
  image_fanout_classification "pen".data "k" c1Values _ 3
    (by decide) (by decide) rfl (by decide)

/-- Counterexample to C2 as stated: with one rejected request and four
payload-bearing fulfilled ones, the claim requires a 4-of-5 PartialSuccess
(4 artifacts shown); the code's `Promise.all` short-circuits on the
rejection, the whole batch lands in the catch block, nothing is shown, and
the error is the caught message — not the partial notice. -/
theorem image_fanout_short_circuit_cex :
    (handleGenerateImage "pen".data (some "k") c2Outcomes).imageUrls = [] ∧
    (handleGenerateImage "pen".data (some "k") c2Outcomes).error =
      some "An error occurred: boom" ∧
    (handleGenerateImage "pen".data (some "k") c2Outcomes).error ≠
      some (imagePartialNotice 4) ∧
    (handleGenerateImage "pen".data (some "k") c2Outcomes).imageUrls.length ≠ 4 := by
  decide

/-- C2 (amended): all five requests are issued before any is awaited and
their settlements are aggregated through `Promise.all`; when every request
fulfills, a fulfilled response lacking the inline payload counts as one
individual failure (the other extracted artifacts are still shown, their
number being exactly the per-response success count); but a rejected request
short-circuits the aggregation — the whole batch fails with the single
caught error and no artifacts are shown. -/
theorem image_fanout_aggregation (prompt : List Char) (key : String)
    (outcomes : List (FetchOutcome (Option InlineData))) (m : String)
    (values : List (Option InlineData)) (hp : jsTrim prompt ≠ []) :
    (promiseAll outcomes = .rejected m →
      handleGenerateImage prompt (some key) outcomes =
        { imageUrls := [], error := some ("An error occurred: " ++ m),
          networkCalls := outcomes.length }) ∧
    ((handleGenerateImage prompt (some key)
        (values.map FetchOutcome.fulfilled)).imageUrls.length
      = values.countP (fun v => v.isSome)) := by
  constructor
  · intro hrej
    unfold handleGenerateImage
    rw [if_neg hp, hrej]
  · exact handleGenerateImage_urls_length prompt key values hp

/-- Witness for the amended C2 at concrete settlements. -/
theorem image_fanout_aggregation_witness :
    (promiseAll c2Outcomes = .rejected "boom" →
      handleGenerateImage "pen".data (some "k") c2Outcomes =
        { imageUrls := [], error := some ("An error occurred: " ++ "boom"),
          networkCalls := c2Outcomes.length }) ∧
    ((handleGenerateImage "pen".data (some "k")
        (c1Values.map FetchOutcome.fulfilled)).imageUrls.length
      = c1Values.countP (fun v => v.isSome)) :=
  image_fanout_aggregation "pen".data "k" c2Outcomes "boom" c1Values (by decide)

/-! ### C3: playback exclusivity -/

/-- Counterexample to C3 as stated: `playAudio bufferA` then
`playAudio bufferB` issued *before* A's asynchronous teardown completed.
Both registered close-callbacks then run: each creates a fresh context, so
the final state has **two** active output resources (the one playing A
leaked, unreachable from the ref) — not the "exactly one active resource,
no leak" the claim requires. -/
theorem playback_race_cex :
    (activeCtxs (closeResolves (closeResolves
        (playAudio (some 1) (playAudio (some 0) playbackInit))))).length = 2 ∧
    leakedCtxs (closeResolves (closeResolves
        (playAudio (some 1) (playAudio (some 0) playbackInit)))) ≠ [] := by
  decide

/-- C3 (amended): playback exclusivity holds only for calls separated by
teardown completion: after `playAudio a`, its close-callback, `playAudio b`,
and its close-callback, exactly one output resource is active (playing `b`)
and nothing leaked.  When `playAudio b` is issued before A's teardown
completes, the two pending close-callbacks each create a fresh context:
two resources end active, the one playing `a` being leaked. -/
theorem playback_sequential_exclusive (a b : Nat) :
    (activeCtxs (closeResolves (playAudio (some b)
        (closeResolves (playAudio (some a) playbackInit))))
      = [{ status := .running, playing := some b }] ∧
     leakedCtxs (closeResolves (playAudio (some b)
        (closeResolves (playAudio (some a) playbackInit)))) = []) ∧
    (activeCtxs (closeResolves (closeResolves
        (playAudio (some b) (playAudio (some a) playbackInit))))
      = [{ status := .running, playing := some a },
         { status := .running, playing := some b }] ∧
     leakedCtxs (closeResolves (closeResolves
        (playAudio (some b) (playAudio (some a) playbackInit))))
      = [(1, { status := .running, playing := some a })]) := by
  constructor
  · constructor <;> rfl
  · constructor <;> rfl

theorem countPolls_pollEventsFrom (i d : Nat) :
    countPolls (pollEventsFrom i d) = d := by
  induction d generalizing i with
  | zero => rfl
  | succ d ih =>
    have h := ih (i + 1)
    simp only [pollEventsFrom, countPolls, List.countP_cons] at h ⊢
    simp at h ⊢
    omega

/-- Inductive engine for C6: starting below the first done poll, the loop
runs exactly the remaining `d + 1` cycles. -/
theorem pollLoop_run (pollF : Nat → FetchOutcome VideoOp) :
    ∀ (d i : Nat) (cur opD : VideoOp), cur.done = false →
      (∀ j, j < d + 1 → 1 ≤ j → fulfilledNotDone (pollF (i + j)) = true) →
      pollF (i + (d + 1)) = .fulfilled opD → opD.done = true →
      pollLoop pollF (d + 1) cur i
        = some (.fulfilled opD, pollEventsFrom i (d + 1)) := by
  intro d
  induction d with
  | zero =>
    intro i cur opD hcur _ hdone hd
    rw [show i + (0 + 1) = i + 1 by omega] at hdone
    rw [pollLoop_step pollF 0 cur i opD hcur hdone,
      pollLoop_done pollF 0 opD (i + 1) hd]
    simp [pollEventsFrom]
  | succ d ih =>
    intro i cur opD hcur hmid hdone hd
    have h1 : fulfilledNotDone (pollF (i + 1)) = true := hmid 1 (by omega) (by omega)
    cases hp : pollF (i + 1) with
    | rejected m => rw [hp] at h1; simp [fulfilledNotDone] at h1
    | fulfilled op1 =>
      rw [hp] at h1
      have hop1 : op1.done = false := by
        simp [fulfilledNotDone] at h1
        exact h1
      rw [pollLoop_step pollF (d + 1) cur i op1 hcur hp]
      rw [ih (i + 1) op1 opD hop1
        (fun j hj hj1 => by
          have := hmid (j + 1) (by omega) (by omega)
          rw [show i + (j + 1) = i + 1 + j by omega] at this
          exact this)
        (by rw [show i + 1 + (d + 1) = i + (d + 1 + 1) by omega]; exact hdone)
        hd]
      simp [pollEventsFrom]

/-- C6: for a simulated job whose `D`-th poll is the first to report
`done = true` (submission handle not done, polls 1..D-1 fulfilled with
not-done handles), the `while (!operation.done)` loop performs exactly `D`
poll calls, each preceded by its fixed 10-second wait, and returns the
terminal (done) operation. -/
theorem poller_terminates_after_D_polls (pollF : Nat → FetchOutcome VideoOp)
    (D : Nat) (op0 opD : VideoOp) (hD : 1 ≤ D) (h0 : op0.done = false)
    (hmid : ∀ j, j < D → 1 ≤ j → fulfilledNotDone (pollF j) = true)
    (hdone : pollF D = .fulfilled opD) (hd : opD.done = true) :
    pollLoop pollF D op0 0 = some (.fulfilled opD, pollEvents D) ∧
    countPolls (pollEvents D) = D := by
  obtain ⟨d, rfl⟩ : ∃ d, D = d + 1 := ⟨D - 1, by omega⟩
  constructor
  · exact pollLoop_run pollF d 0 op0 opD h0
      (fun j hj hj1 => by simpa using hmid j (by omega) hj1)
      (by simpa using hdone) hd
  · exact countPolls_pollEventsFrom 0 (d + 1)

/-- Witness for C6 with D = 2. -/
theorem poller_terminates_witness :
    pollLoop c6PollF 2 { done := false, uri := none } 0
      = some (.fulfilled { done := true, uri := some "gs://video" }, pollEvents 2) ∧
    countPolls (pollEvents 2) = 2 :=
  poller_terminates_after_D_polls c6PollF 2 { done := false, uri := none }
    { done := true, uri := some "gs://video" } (by decide) (by decide)
    (by decide) (by decide) (by decide)

/-! ### C7: credential-failure classification -/

/-- The invalid-key message is distinct from every generic caught-error
message (their second characters differ). -/
theorem invalidKeyMsg_ne_generic (m : String) :
    invalidKeyMsg ≠ "An error occurred: " ++ m := by
  intro h
  obtain ⟨md⟩ := m
  have hdata : invalidKeyMsg.data = "An error occurred: ".data ++ md :=
    congrArg String.data h
  have h1 := congrArg (fun l => l[1]?) hdata
  simp only [] at h1
  rw [List.getElem?_append_left (by decide)] at h1
  exact absurd h1 (by decide)

/-- C7: whenever a video submission / poll / download failure is caught,
the handler classifies it by the caught text: if it contains the known
"Requested entity was not found" substring, the error shown is the distinct
invalid-credential message (not the generic caught-error message) and the
cached `apiKeySelected` flag is revoked, making the component render only
the key-selection screen; for every other caught text — and for runs that
throw nothing — the flag is left unchanged. -/
theorem video_credential_classification (prompt : List Char) (hasImage : Bool)
    (key : String) (sel0 : Bool) (submit : FetchOutcome VideoOp)
    (pollF : Nat → FetchOutcome VideoOp) (fuel : Nat)
    (download : String → DlResult) (st : VideoRunState) (m : String)
    (hrun : handleGenerateVideo prompt hasImage (some key) sel0 submit pollF
      fuel download = some st) :
    (st.thrownMsg = some m →
      (strIncludes m entityNotFoundSub = true →
        st.error = some invalidKeyMsg ∧ st.apiKeySelected = false ∧
        invalidKeyMsg ≠ "An error occurred: " ++ m ∧
        videoGeneratePaneVisible st.apiKeySelected = false) ∧
      (strIncludes m entityNotFoundSub = false →
        st.error = some ("An error occurred: " ++ m) ∧
        st.apiKeySelected = sel0)) ∧
    (st.thrownMsg = none → st.apiKeySelected = sel0) := by
  have hcatch : ∀ m' : String,
      (st.thrownMsg = some m' ∧ st.error = (videoCatch m' sel0).1 ∧
        st.apiKeySelected = (videoCatch m' sel0).2) →
      (st.thrownMsg = some m →
        (strIncludes m entityNotFoundSub = true →
          st.error = some invalidKeyMsg ∧ st.apiKeySelected = false ∧
          invalidKeyMsg ≠ "An error occurred: " ++ m ∧
          videoGeneratePaneVisible st.apiKeySelected = false) ∧
        (strIncludes m entityNotFoundSub = false →
          st.error = some ("An error occurred: " ++ m) ∧
          st.apiKeySelected = sel0)) ∧
      (st.thrownMsg = none → st.apiKeySelected = sel0) := by
    rintro m' ⟨hthrown, herr, hsel⟩
    refine ⟨?_, ?_⟩
    · intro hm
      rw [hthrown] at hm
      have hmm : m' = m := by injection hm
      subst hmm
      constructor
      · intro hinc
        unfold videoCatch at herr hsel
        rw [if_pos hinc] at herr hsel
        exact ⟨herr, hsel, invalidKeyMsg_ne_generic m',
          by rw [videoGeneratePaneVisible, hsel]⟩
      · intro hninc
        unfold videoCatch at herr hsel
        rw [if_neg (by simp [hninc])] at herr hsel
        exact ⟨herr, hsel⟩
    · intro hnone
      rw [hthrown] at hnone
      exact absurd hnone (by simp)
  unfold handleGenerateVideo at hrun
  by_cases hval : (jsTrim prompt = [] || !hasImage) = true
  · rw [if_pos hval] at hrun
    have hst := Option.some.inj hrun
    subst hst
    exact ⟨fun hm => absurd hm (by simp), fun _ => rfl⟩
  · rw [if_neg hval] at hrun
    cases submit with
    | rejected ms =>
      simp only [] at hrun
      have hst := Option.some.inj hrun
      subst hst
      exact hcatch ms ⟨rfl, rfl, rfl⟩
    | fulfilled op0 =>
      simp only [] at hrun
      cases hpl : pollLoop pollF fuel op0 0 with
      | none => rw [hpl] at hrun; exact absurd hrun (by simp)
      | some res =>
        rw [hpl] at hrun
        obtain ⟨r, evs⟩ := res
        cases r with
        | rejected ms =>
          simp only [] at hrun
          have hst := Option.some.inj hrun
          subst hst
          exact hcatch ms ⟨rfl, rfl, rfl⟩
        | fulfilled opF =>
          simp only [] at hrun
          cases huri : opF.uri with
          | none =>
            rw [huri] at hrun
            simp only [] at hrun
            have hst := Option.some.inj hrun
            subst hst
            exact hcatch noLinkMsg ⟨rfl, rfl, rfl⟩
          | some uri =>
            rw [huri] at hrun
            simp only [] at hrun
            cases hdl : download (uri ++ "&key=" ++ key) with
            | netErr ms =>
              rw [hdl] at hrun
              have hst := Option.some.inj hrun
              subst hst
              exact hcatch ms ⟨rfl, rfl, rfl⟩
            | notOk statusText =>
              rw [hdl] at hrun
              have hst := Option.some.inj hrun
              subst hst
              exact hcatch ("Failed to download video: " ++ statusText)
                ⟨rfl, rfl, rfl⟩
            | ok =>
              rw [hdl] at hrun
              have hst := Option.some.inj hrun
              subst hst
              exact ⟨fun hm => absurd hm (by simp), fun _ => rfl⟩

/-- Witness for C7: a submission rejected with the entity-not-found text
revokes the flag and shows the invalid-key message; one rejected with
another text keeps the flag and shows the generic message. -/
theorem video_credential_classification_witness :
    ∃ st1 st2 : VideoRunState,
      handleGenerateVideo "go".data true (some "k") true
          (.rejected "Requested entity was not found: key")
          (fun _ => .fulfilled { done := true, uri := none }) 0
          (fun _ => .ok) = some st1 ∧
      st1.error = some invalidKeyMsg ∧ st1.apiKeySelected = false ∧
      handleGenerateVideo "go".data true (some "k") true
          (.rejected "socket hang up")
          (fun _ => .fulfilled { done := true, uri := none }) 0
          (fun _ => .ok) = some st2 ∧
      st2.error = some ("An error occurred: " ++ "socket hang up") ∧
      st2.apiKeySelected = true := by
  refine ⟨_, _, rfl, ?_, ?_, rfl, ?_, ?_⟩
  · exact (((video_credential_classification "go".data true "k" true
      (.rejected "Requested entity was not found: key")
      (fun _ => .fulfilled { done := true, uri := none }) 0 (fun _ => .ok)
      _ "Requested entity was not found: key" rfl).1 (by decide)).1 (by decide)).1
  · exact (((video_credential_classification "go".data true "k" true
      (.rejected "Requested entity was not found: key")
      (fun _ => .fulfilled { done := true, uri := none }) 0 (fun _ => .ok)
      _ "Requested entity was not found: key" rfl).1 (by decide)).1 (by decide)).2.1
  · exact (((video_credential_classification "go".data true "k" true
      (.rejected "socket hang up")
      (fun _ => .fulfilled { done := true, uri := none }) 0 (fun _ => .ok)
      _ "socket hang up" rfl).1 (by decide)).2 (by decide)).1
  · exact (((video_credential_classification "go".data true "k" true
      (.rejected "socket hang up")
      (fun _ => .fulfilled { done := true, uri := none }) 0 (fun _ => .ok)
      _ "socket hang up" rfl).1 (by decide)).2 (by decide)).2

/-! ### C8: validation / credential gates of the three entry points -/

/-- C9: in the speech orchestration, if either of the two concurrently
issued audio requests fails (rejects, or settles without an inline audio
payload), the stored audio state holds neither buffer and a single
aggregated error message is surfaced; moreover in *every* run the stored
audio state holds either both buffers or neither — never exactly one. -/
theorem speech_audio_all_or_nothing (t : List Char) (key : String)
    (raw : List Char) (tA tB : FetchOutcome (Option String))
    (dec : String → FetchOutcome Nat) (ht : jsTrim t ≠ [])
    (hfail : audioMissing tA = true ∨ audioMissing tB = true) :
    ((handleGenerateSpeech t (some key) (.fulfilled raw) tA tB dec).generatedAudio
        = (none, none) ∧
      ∃ m, (handleGenerateSpeech t (some key) (.fulfilled raw) tA tB dec).error
        = some m) ∧
    (∀ (t' : List Char) (key' : Option String) (rw' : FetchOutcome (List Char))
        (tA' tB' : FetchOutcome (Option String)) (dec' : String → FetchOutcome Nat),
      ((handleGenerateSpeech t' key' rw' tA' tB' dec').generatedAudio.1.isSome)
        = ((handleGenerateSpeech t' key' rw' tA' tB' dec').generatedAudio.2.isSome)) := by
  constructor
  · unfold handleGenerateSpeech
    rw [if_neg ht]
    simp only []
    cases tA with
    | rejected m => exact ⟨rfl, _, rfl⟩
    | fulfilled ro =>
      cases tB with
      | rejected m => exact ⟨rfl, _, rfl⟩
      | fulfilled rb =>
        have hmiss : ro = none ∨ rb = none := by
          rcases hfail with h | h
          · left
            cases ro with
            | none => rfl
            | some _ => simp [audioMissing] at h
          · right
            cases rb with
            | none => rfl
            | some _ => simp [audioMissing] at h
        rcases hmiss with h | h
        · subst h
          exact ⟨rfl, _, rfl⟩
        · subst h
          cases ro with
          | none => exact ⟨rfl, _, rfl⟩
          | some _ => exact ⟨rfl, _, rfl⟩
  · intro t' key' rw' tA' tB' dec'
    unfold handleGenerateSpeech
    by_cases h1 : jsTrim t' = []
    · rw [if_pos h1]
    · rw [if_neg h1]
      cases key' with
      | none => rfl
      | some k =>
        cases rw' with
        | rejected m => rfl
        | fulfilled raw' =>
          simp only []
          cases tA' with
          | rejected m => rfl
          | fulfilled ro =>
            cases tB' with
            | rejected m => rfl
            | fulfilled rb =>
              cases ro with
              | none => rfl
              | some ob =>
                cases rb with
                | none => rfl
                | some bb =>
                  simp only []
                  cases hdo : dec' ob with
                  | rejected m => rfl
                  | fulfilled bufO =>
                    cases hdb : dec' bb with
                    | rejected m => rfl
                    | fulfilled bufB => rfl

/-- Witness for C9: second TTS request settles without a payload. -/
theorem speech_audio_all_or_nothing_witness :
    (handleGenerateSpeech "hi".data (some "k") (.fulfilled "ok".data)
        (.fulfilled (some "aaa")) (.fulfilled none)
        (fun _ => .fulfilled 7)).generatedAudio = (none, none) ∧
    ∃ m, (handleGenerateSpeech "hi".data (some "k") (.fulfilled "ok".data)
        (.fulfilled (some "aaa")) (.fulfilled none)
        (fun _ => .fulfilled 7)).error = some m :=
  (speech_audio_all_or_nothing "hi".data "k" "ok".data
    (.fulfilled (some "aaa")) (.fulfilled none) (fun _ => .fulfilled 7)
    (by decide) (Or.inr (by decide))).1

/-! ### C10: the credential-selection dialog is trusted unconditionally -/

/-- C10: whenever the interactive credential-selection call resolves without
throwing, `apiKeySelected` is set to `true` no matter what happened in the
dialog (the resolution value `didSelect` is never inspected), so the video
generation pane becomes reachable without any verified credential; a
rejection leaves the flag unchanged; and the only generation-failure path
that resets the flag to `false` is the one whose caught text contains the
entity-not-found substring. -/
theorem select_key_sets_flag_unconditionally :
    (∀ (didSelect : Bool) (st : Bool × Option String),
        handleSelectKey (.fulfilled didSelect) st = (true, st.2)) ∧
    (∀ (m : String) (st : Bool × Option String),
        handleSelectKey (.rejected m) st = (st.1, some selectKeyFailMsg)) ∧
    (∀ (didSelect : Bool) (st : Bool × Option String),
        videoGeneratePaneVisible (handleSelectKey (.fulfilled didSelect) st).1 = true) ∧
    (∀ m : String, ((videoCatch m true).2 = false)
        ↔ strIncludes m entityNotFoundSub = true) := by
  refine ⟨fun _ _ => rfl, fun _ _ => rfl, fun _ _ => rfl, ?_⟩
  intro m
  by_cases h : strIncludes m entityNotFoundSub = true
  · simp [videoCatch, h]
  · simp [videoCatch, h]

end WolfSuite
